import Mathlib

/-!
# pkg-context: event bus, context store, header and notification tasks

A shallow embedding of `src/event.go`, `src/header.go` and `src/context.go`.

* Go's `sync.Map` with string keys is an association list holding at most one
  entry per key (`SyncMap`).
* A value of interface type `any` is a small tagged sum (`Any`, `Stored`), so
  that every type assertion of the source has both of its branches.
* Handlers are opaque values of a type `η`; what a handler does when it is
  called is given by a behaviour function on a world state `σ`, whose result
  says whether the call returned or panicked.
* Code with receivers is written in state passing style: an operation takes
  the receiver's state and gives back the new one.
-/

namespace PkgContext

/-! ## sync.Map -/

/-- Contents of a `sync.Map` whose keys are strings. -/
abbrev SyncMap (α : Type) := List (String × α)

/-- `m.Load(key)`: the value stored under `key`, if any. -/
def SyncMap.Load {α : Type} : SyncMap α → String → Option α
  | [], _ => none
  | (k, v) :: rest, key => if k = key then some v else SyncMap.Load rest key

/-- `m.Delete(key)`. -/
def SyncMap.Delete {α : Type} (m : SyncMap α) (key : String) : SyncMap α :=
  List.filter (fun e => decide (e.1 ≠ key)) m

/-- `m.Store(key, value)`: overwrites whatever `key` held. -/
def SyncMap.Store {α : Type} (m : SyncMap α) (key : String) (value : α) : SyncMap α :=
  (key, value) :: SyncMap.Delete m key

/-- `m.LoadOrStore(key, value)`: the value now under `key`, whether it was
already there, and the map afterwards. -/
def SyncMap.LoadOrStore {α : Type} (m : SyncMap α) (key : String) (value : α) :
    α × Bool × SyncMap α :=
  match SyncMap.Load m key with
  | some actual => (actual, true, m)
  | none => (value, false, SyncMap.Store m key value)

/-! ## Outcomes of calls that may panic -/

/-- How a call ended: it returned, or it panicked; either way it leaves a
world state behind. -/
inductive Outcome (σ : Type) where
  | ok (s : σ)
  | panic (s : σ)
  deriving DecidableEq, Repr

/-- The world state a call left behind. -/
def Outcome.state {σ : Type} : Outcome σ → σ
  | .ok s => s
  | .panic s => s

/-- Whether the call returned normally. -/
def Outcome.returned {σ : Type} : Outcome σ → Bool
  | .ok _ => true
  | .panic _ => false

/-! ## Event bus (`src/event.go`) -/

/-- A value held by `event.subscribers` (a `sync.Map` of `any`): a slice of
handlers, or a value of some other dynamic type. -/
inductive Stored (η : Type) where
  | handlers (hs : List η)
  | foreign
  deriving DecidableEq, Repr

/-- The `event` struct; the mutex has no content in a sequential model. -/
structure event (η : Type) where
  subscribers : SyncMap (Stored η)
  deriving DecidableEq, Repr

/-- `newEvent()`. -/
def newEvent {η : Type} : event η :=
  { subscribers := [] }

/-- `es.On(eventName, handlers...)`. -/
def event.On {η : Type} (es : event η) (eventName : String) (handlers : List η) : event η :=
  match SyncMap.LoadOrStore es.subscribers eventName (Stored.handlers []) with
  | (Stored.handlers storedHandlers, _, m) =>
      { subscribers := SyncMap.Store m eventName (Stored.handlers (storedHandlers ++ handlers)) }
  | (Stored.foreign, _, m) =>
      { subscribers := SyncMap.Store m eventName (Stored.handlers handlers) }

/-- `es.Off(eventName)`. -/
def event.Off {η : Type} (es : event η) (eventName : String) : event η :=
  match SyncMap.Load es.subscribers eventName with
  | some _ => { subscribers := SyncMap.Delete es.subscribers eventName }
  | none => es

/-- A subscription change on a bus. -/
inductive BusOp (η : Type) where
  | On (eventName : String) (handlers : List η)
  | Off (eventName : String)
  deriving DecidableEq, Repr

/-- One subscription change applied to a bus. -/
def BusOp.apply {η : Type} : BusOp η → event η → event η
  | BusOp.On eventName handlers, es => es.On eventName handlers
  | BusOp.Off eventName, es => es.Off eventName

/-- A sequence of subscription changes applied in order. -/
def applyBusOps {η : Type} (ops : List (BusOp η)) (es : event η) : event η :=
  List.foldl (fun acc op => op.apply acc) es ops

/-- One call `h(ctx, payload)`. -/
structure Invocation (η γ π : Type) where
  handler : η
  ctx : γ
  payload : π
  deriving DecidableEq, Repr

/-- What a synchronous emit did: the handler calls it made, in order, and how
it ended (a handler panic is not recovered, it ends the emit). -/
structure EmitResult (η γ π σ : Type) where
  trace : List (Invocation η γ π)
  final : Outcome σ
  deriving DecidableEq, Repr

/-- The loop `for _, h := range storedHandlers { h(ctx, payload) }`. -/
def runHandlers {η γ π σ : Type} (behave : η → γ → π → σ → Outcome σ) (ctx : γ) (payload : π) :
    List η → σ → EmitResult η γ π σ
  | [], s => { trace := [], final := Outcome.ok s }
  | h :: rest, s =>
      match behave h ctx payload s with
      | Outcome.ok s1 =>
          let r := runHandlers behave ctx payload rest s1
          { trace := { handler := h, ctx := ctx, payload := payload } :: r.trace, final := r.final }
      | Outcome.panic s1 =>
          { trace := [{ handler := h, ctx := ctx, payload := payload }], final := Outcome.panic s1 }

/-- `es.Emit(ctx, eventName, payload)`. The bus is read once, before the first
handler runs; the handlers act on the world state. -/
def event.Emit {η γ π σ : Type} (behave : η → γ → π → σ → Outcome σ) (es : event η) (ctx : γ)
    (eventName : String) (payload : π) (s : σ) : EmitResult η γ π σ :=
  match SyncMap.Load es.subscribers eventName with
  | some (Stored.handlers storedHandlers) => runHandlers behave ctx payload storedHandlers s
  | some Stored.foreign => { trace := [], final := Outcome.ok s }
  | none => { trace := [], final := Outcome.ok s }

/-- The handlers registered under a name: those of the stored slice, none when
the name has no entry. -/
def event.registered {η : Type} (es : event η) (eventName : String) : List η :=
  match SyncMap.Load es.subscribers eventName with
  | some (Stored.handlers hs) => hs
  | _ => []

/-- A unit of work handed to `SafeGo`: the label it is launched under and the
handler call `handler(ctx, payload)` its body makes. -/
structure Task (η γ π : Type) where
  label : String
  handler : η
  ctx : γ
  payload : π
  deriving DecidableEq, Repr

/-- Modelled from the spec: `SafeGo(ctx, label, fn)`, the SafeTask Launcher,
is code of this repository that is not under src/. The spec (4.1) says it
schedules `fn` on an independent thread of control and returns immediately:
the task joins the running tasks and nothing of it has run yet. -/
def SafeGo {η γ π : Type} (running : List (Task η γ π)) (t : Task η γ π) : List (Task η γ π) :=
  running ++ [t]

/-- Modelled from the spec: the recovery half of `SafeGo` (not under src/).
The spec (4.1) says that a panic of `fn` is recovered and reported through the
context's error-logging path tagged with the label; a body that returns
reports nothing. -/
def SafeGo.settle {σ : Type} (label : String) (r : Outcome σ) (reports : List String) :
    List String :=
  match r with
  | Outcome.ok _ => reports
  | Outcome.panic _ => reports ++ [label]

/-- `es.AsyncEmitNoWait(ctx, eventName, payload)`: the tasks it hands to
`SafeGo`, in order; it calls no handler itself. -/
def event.AsyncEmitNoWait {η γ π : Type} (es : event η) (ctx : γ) (eventName : String)
    (payload : π) : List (Task η γ π) :=
  match SyncMap.Load es.subscribers eventName with
  | some (Stored.handlers storedHandlers) =>
      List.foldl
        (fun running h =>
          SafeGo running
            { label := "x.event.AsyncEmitNoWait", handler := h, ctx := ctx, payload := payload })
        [] storedHandlers
  | some Stored.foreign => []
  | none => []

/-- A moment in one call of `es.AsyncEmit`: the handlers the range loop has
still to launch, the wait group counter, the launched tasks that have not
finished, the finished ones (with whether the handler returned), the reports
of recovered panics, the world, and whether the call has returned. -/
structure WaitState (η γ π σ : Type) where
  todo : List η
  wg : Int
  running : List (Task η γ π)
  finished : List (Task η γ π × Bool)
  reports : List String
  world : σ
  returned : Bool
  deriving DecidableEq, Repr

/-- `es.AsyncEmit(ctx, eventName, payload)`, at the moment the bus has been
read: with a handler slice the range loop is about to start, otherwise the
call returns at once. -/
def event.AsyncEmit {η γ π σ : Type} (es : event η) (eventName : String) (w : σ) :
    WaitState η γ π σ :=
  match SyncMap.Load es.subscribers eventName with
  | some (Stored.handlers storedHandlers) =>
      { todo := storedHandlers, wg := 0, running := [], finished := [], reports := [],
        world := w, returned := false }
  | some Stored.foreign =>
      { todo := [], wg := 0, running := [], finished := [], reports := [],
        world := w, returned := true }
  | none =>
      { todo := [], wg := 0, running := [], finished := [], reports := [],
        world := w, returned := true }

/-- What happens next in a call of `es.AsyncEmit`. -/
inductive Move where
  | loop
  | finish (i : Nat)
  | wait
  deriving DecidableEq, Repr

/-- One move of a call of `es.AsyncEmit`, `none` when the move cannot happen.

* `loop`: the caller runs one iteration, `wg.Add(1)` and then `SafeGo` of the
  closure for the next handler.
* `finish i`: the `i`-th running task runs its body `defer wg.Done();
  handler(ctx, payload)` to its end: the handler returns or panics, the
  deferred `wg.Done()` runs in both cases, and the launcher settles a panic.
* `wait`: the loop is over and `wg.Wait()` returns, which needs the counter
  to be zero. -/
def event.AsyncEmit.step {η γ π σ : Type} (behave : η → γ → π → σ → Outcome σ) (ctx : γ)
    (payload : π) : Move → WaitState η γ π σ → Option (WaitState η γ π σ)
  | Move.loop, st =>
      if st.returned then none
      else
        match st.todo with
        | [] => none
        | h :: rest =>
            some { st with
              todo := rest
              wg := st.wg + 1
              running := SafeGo st.running
                { label := "x.event.AsyncEmit", handler := h, ctx := ctx, payload := payload } }
  | Move.finish i, st =>
      match st.running[i]? with
      | none => none
      | some t =>
          let r := behave t.handler t.ctx t.payload st.world
          some { st with
            wg := st.wg - 1
            running := st.running.eraseIdx i
            finished := st.finished ++ [(t, r.returned)]
            reports := SafeGo.settle t.label r st.reports
            world := r.state }
  | Move.wait, st =>
      if st.returned then none
      else
        match st.todo with
        | [] => if st.wg = 0 then some { st with returned := true } else none
        | _ :: _ => none

/-- A schedule of moves, run from a state; `none` when some move of it cannot
happen. -/
def event.AsyncEmit.run {η γ π σ : Type} (behave : η → γ → π → σ → Outcome σ) (ctx : γ)
    (payload : π) : List Move → WaitState η γ π σ → Option (WaitState η γ π σ)
  | [], st => some st
  | m :: ms, st =>
      match event.AsyncEmit.step behave ctx payload m st with
      | none => none
      | some st1 => event.AsyncEmit.run behave ctx payload ms st1

/-- The task `es.AsyncEmit` launches for a handler. -/
def waitTask {η γ π : Type} (ctx : γ) (payload : π) (h : η) : Task η γ π :=
  { label := "x.event.AsyncEmit", handler := h, ctx := ctx, payload := payload }

/-! ## Header (`src/header.go`) -/

/-- `type Endpoint string`. -/
abbrev Endpoint := String

/-- The `Header` struct. -/
structure Header where
  Endpoint : Endpoint
  MarkVal : String
  RefVal : String
  PathVal : String
  TraceIdVal : String
  IPVal : String
  deriving DecidableEq, Repr

/-- The trace id generator behind `generateTraceId` (`uuid.NewString`, an
external collaborator): the ids it hands out, one after the other, and how
many it has handed out. -/
structure TraceGen where
  ids : Nat → String
  pos : Nat

/-- `generateTraceId()`: the next id of the generator. -/
def generateTraceId (g : TraceGen) : String × TraceGen :=
  (g.ids g.pos, { g with pos := g.pos + 1 })

/-- `NewHeader(endpoint)`. -/
def NewHeader (endpoint : Endpoint) (g : TraceGen) : Header × TraceGen :=
  ({ Endpoint := endpoint, MarkVal := "", RefVal := "", PathVal := "",
     TraceIdVal := (generateTraceId g).1, IPVal := "" }, (generateTraceId g).2)

/-- `h.StoreRef(ref)`. -/
def Header.StoreRef (h : Header) (ref : String) : Header :=
  { h with RefVal := ref }

/-- `h.StorePath(path)`. -/
def Header.StorePath (h : Header) (path : String) : Header :=
  { h with PathVal := path }

/-- `h.TraceId()`. -/
def Header.TraceId (h : Header) : String :=
  h.TraceIdVal

/-- `h.WithTraceId(traceId)`. -/
def Header.WithTraceId (h : Header) (traceId : String) : Header :=
  { h with TraceIdVal := traceId }

/-- `h.GenerateTraceId()`: keeps a non-empty trace id, fills an empty one. -/
def Header.GenerateTraceId (h : Header) (g : TraceGen) : Header × TraceGen :=
  if h.TraceIdVal ≠ "" then (h, g)
  else ({ h with TraceIdVal := (generateTraceId g).1 }, (generateTraceId g).2)

/-- `h.ResetTraceId()`. -/
def Header.ResetTraceId (h : Header) (g : TraceGen) : Header × TraceGen :=
  ({ h with TraceIdVal := (generateTraceId g).1 }, (generateTraceId g).2)

/-- `h.Mark()`. -/
def Header.Mark (h : Header) : String :=
  h.MarkVal

/-- `h.WithMark(mark)`. -/
def Header.WithMark (h : Header) (mark : String) : Header :=
  { h with MarkVal := mark }

/-- `h.StoreIP(ip)`. -/
def Header.StoreIP (h : Header) (ip : String) : Header :=
  { h with IPVal := ip }

/-- `h.Clone()`: the endpoint and a new trace id, every other field zero. -/
def Header.Clone (h : Header) (g : TraceGen) : Header × TraceGen :=
  ({ Endpoint := h.Endpoint, MarkVal := "", RefVal := "", PathVal := "",
     TraceIdVal := (generateTraceId g).1, IPVal := "" }, (generateTraceId g).2)

/-- The writing operations of `IHeader`. -/
inductive HeaderOp where
  | StoreRef (ref : String)
  | StorePath (path : String)
  | WithTraceId (traceId : String)
  | GenerateTraceId
  | ResetTraceId
  | WithMark (mark : String)
  | StoreIP (ip : String)
  deriving DecidableEq, Repr

/-- One header operation applied to a header. -/
def HeaderOp.apply : HeaderOp → Header × TraceGen → Header × TraceGen
  | HeaderOp.StoreRef ref, (h, g) => (h.StoreRef ref, g)
  | HeaderOp.StorePath path, (h, g) => (h.StorePath path, g)
  | HeaderOp.WithTraceId traceId, (h, g) => (h.WithTraceId traceId, g)
  | HeaderOp.GenerateTraceId, (h, g) => h.GenerateTraceId g
  | HeaderOp.ResetTraceId, (h, g) => h.ResetTraceId g
  | HeaderOp.WithMark mark, (h, g) => (h.WithMark mark, g)
  | HeaderOp.StoreIP ip, (h, g) => (h.StoreIP ip, g)

/-- A sequence of header operations applied in order. -/
def applyHeaderOps (ops : List HeaderOp) (hg : Header × TraceGen) : Header × TraceGen :=
  List.foldl (fun acc op => op.apply acc) hg ops

/-! ## Context (`src/context.go`) -/

/-- A value of type `any` as the store and the field maps hold it: the nil
interface, a string, a value whose dynamic type implements `IJwtClaim`, or a
value of any other dynamic type. -/
inductive Any (κ : Type) where
  | nil
  | str (s : String)
  | claim (c : κ)
  | other (tag : String)
  deriving DecidableEq, Repr

/-- The field map type `H`: keys with their values. -/
abbrev H (κ : Type) := List (String × Any κ)

/-- `const jwtClaimKey`. -/
def jwtClaimKey : String := "x:jwt:claim"

/-- The `DefaultContext` struct (the embedded `context.Background()` has no
state). `Header` is the struct behind the pointer, which `NewDefaultContext`
and `Clone` always set. -/
structure DefaultContext (κ η L : Type) where
  mapping : SyncMap (Any κ)
  Header : Header
  logger : L
  event : Option (event η)

/-- `NewDefaultContext(endpoint, path)`; `loggerManager` stands for
`_loggerManager.Receive`. -/
def NewDefaultContext {κ η L : Type} (loggerManager : String → L) (endpoint : Endpoint)
    (path : String) (g : TraceGen) : DefaultContext κ η L × TraceGen :=
  ({ mapping := []
     Header := { Endpoint := endpoint, MarkVal := "", RefVal := "", PathVal := path,
                 TraceIdVal := (generateTraceId g).1, IPVal := "" }
     logger := loggerManager endpoint
     event := none }, (generateTraceId g).2)

/-- What `d.Clone()` leaves: the receiver, the new context, the generator. -/
structure Cloned (κ η L : Type) where
  receiver : DefaultContext κ η L
  ctx : DefaultContext κ η L
  gen : TraceGen

/-- `d.Clone()`. -/
def DefaultContext.Clone {κ η L : Type} (d : DefaultContext κ η L) (g : TraceGen) :
    Cloned κ η L :=
  { receiver := d
    ctx := { mapping := [], Header := (d.Header.Clone g).1, logger := d.logger, event := none }
    gen := (d.Header.Clone g).2 }

/-- `d.takeEvent()`: the bus, made on first use, and the receiver. -/
def DefaultContext.takeEvent {κ η L : Type} (d : DefaultContext κ η L) :
    PkgContext.event η × DefaultContext κ η L :=
  match d.event with
  | some es => (es, d)
  | none => (newEvent, { d with event := some newEvent })

/-- `d.On(eventName, handlers...)`. -/
def DefaultContext.On {κ η L : Type} (d : DefaultContext κ η L) (eventName : String)
    (handlers : List η) : DefaultContext κ η L :=
  { d.takeEvent.2 with event := some (d.takeEvent.1.On eventName handlers) }

/-- `d.OffEvent(eventName)`. -/
def DefaultContext.OffEvent {κ η L : Type} (d : DefaultContext κ η L) (eventName : String) :
    DefaultContext κ η L :=
  { d.takeEvent.2 with event := some (d.takeEvent.1.Off eventName) }

/-- `d.Emit(eventName, payload)`; `self` is the reference to `d` that the
handlers receive as their context. -/
def DefaultContext.Emit {κ η L γ π σ : Type} (behave : η → γ → π → σ → Outcome σ)
    (d : DefaultContext κ η L) (self : γ) (eventName : String) (payload : π) (s : σ) :
    EmitResult η γ π σ × DefaultContext κ η L :=
  (d.takeEvent.1.Emit behave self eventName payload s, d.takeEvent.2)

/-- `d.AsyncEmit(eventName, payload)`, the variant that does not wait. -/
def DefaultContext.AsyncEmit {κ η L γ π : Type} (d : DefaultContext κ η L) (self : γ)
    (eventName : String) (payload : π) : List (Task η γ π) × DefaultContext κ η L :=
  (d.takeEvent.1.AsyncEmitNoWait self eventName payload, d.takeEvent.2)

/-- `d.AsyncEmitAndWait(eventName, payload)`, at the moment the bus has been
read. -/
def DefaultContext.AsyncEmitAndWait {κ η L γ π σ : Type} (d : DefaultContext κ η L)
    (eventName : String) (w : σ) : WaitState η γ π σ × DefaultContext κ η L :=
  (d.takeEvent.1.AsyncEmit eventName w, d.takeEvent.2)

/-- `d.Get(key)`: the value and the found flag. -/
def DefaultContext.Get {κ η L : Type} (d : DefaultContext κ η L) (key : String) : Any κ × Bool :=
  match SyncMap.Load d.mapping key with
  | some val => (val, true)
  | none => (Any.nil, false)

/-- `d.Set(key, val)`. -/
def DefaultContext.Set {κ η L : Type} (d : DefaultContext κ η L) (key : String) (val : Any κ) :
    DefaultContext κ η L :=
  { d with mapping := SyncMap.Store d.mapping key val }

/-- An `IJwtClaim` interface value as an `any`: nil stays nil. -/
def claimAsAny {κ : Type} : Option κ → Any κ
  | none => Any.nil
  | some c => Any.claim c

/-- `d.StoreJwtClaim(claim)`; `none` is the nil claim. -/
def DefaultContext.StoreJwtClaim {κ η L : Type} (d : DefaultContext κ η L) (claim : Option κ) :
    DefaultContext κ η L :=
  { d with mapping := SyncMap.Store d.mapping jwtClaimKey (claimAsAny claim) }

/-- The type assertion `val.(IJwtClaim)` in its one-result form: it panics
on the nil interface and on a dynamic type that lacks the methods. -/
def assertJwtClaim {κ : Type} : Any κ → Except String κ
  | Any.claim c => Except.ok c
  | Any.nil => Except.error "interface conversion: interface is nil, not context.IJwtClaim"
  | Any.str _ => Except.error "interface conversion: string is not context.IJwtClaim"
  | Any.other _ => Except.error "interface conversion: value is not context.IJwtClaim"

/-- `d.JwtClaim()`: `ok none` is the nil claim, `error` is a panic. -/
def DefaultContext.JwtClaim {κ η L : Type} (d : DefaultContext κ η L) :
    Except String (Option κ) :=
  match SyncMap.Load d.mapping jwtClaimKey with
  | none => Except.ok none
  | some val =>
      match assertJwtClaim val with
      | Except.ok c => Except.ok (some c)
      | Except.error msg => Except.error msg

/-- A write to the store through the `Context` interface. -/
inductive StoreOp (κ : Type) where
  | Set (key : String) (val : Any κ)
  | StoreJwtClaim (claim : Option κ)
  deriving DecidableEq, Repr

/-- One store write applied to a context. -/
def StoreOp.apply {κ η L : Type} : StoreOp κ → DefaultContext κ η L → DefaultContext κ η L
  | StoreOp.Set key val, d => d.Set key val
  | StoreOp.StoreJwtClaim claim, d => d.StoreJwtClaim claim

/-- A sequence of store writes applied in order. -/
def applyStoreOps {κ η L : Type} (ops : List (StoreOp κ)) (d : DefaultContext κ η L) :
    DefaultContext κ η L :=
  List.foldl (fun acc op => op.apply acc) d ops

/-- A sequence of `Set(key, val)` calls applied in order. -/
def applySets {κ η L : Type} (sets : List (String × Any κ)) (d : DefaultContext κ η L) :
    DefaultContext κ η L :=
  List.foldl (fun acc kv => acc.Set kv.1 kv.2) d sets

/-! ## Notification tasks (`src/context.go`) -/

/-- The parts of `time.Now()` that `robotHeader` reads. -/
structure Time where
  year : Nat
  month : Nat
  day : Nat
  hour : Nat
  deriving DecidableEq, Repr

/-- A number in decimal, padded with zeros on the left up to a width. -/
def zeroPad (width n : Nat) : String :=
  String.mk (List.replicate (width - (toString n).length) '0') ++ toString n

/-- `now.Format("200601/02")`: four digit year, two digit month, a slash,
two digit day. -/
def Time.format200601_02 (now : Time) : String :=
  zeroPad 4 now.year ++ zeroPad 2 now.month ++ "/" ++ zeroPad 2 now.day

/-- `d.robotHeader()`, with `now` for `time.Now()`. -/
def DefaultContext.robotHeader {κ η L : Type} (d : DefaultContext κ η L) (now : Time) : H κ :=
  let traceId := d.Header.TraceId
  [ ("Mark", Any.str d.Header.MarkVal),
    ("TraceId", Any.str traceId),
    ("Command", Any.str
      ("grep " ++ traceId ++ " /wider-logs/" ++ now.format200601_02 ++ "/" ++ d.Header.Endpoint
        ++ "." ++ toString now.hour ++ ".*.log")) ]

/-- The four notification channels. -/
inductive Channel where
  | error
  | warning
  | success
  | info
  deriving DecidableEq, Repr

/-- A notification transport, `Send(title, body, fields...) error`: `none` is
the nil error, `some e` a failure with message `e`. -/
abbrev Roboter (κ : Type) := String → String → List (H κ) → Option String

/-- The package-level transports `errorRoboter`, `warningRoboter`,
`successRoboter` and `infoRoboter`; `none` is a nil transport. -/
structure Roboters (κ : Type) where
  errorRoboter : Option (Roboter κ)
  warningRoboter : Option (Roboter κ)
  successRoboter : Option (Roboter κ)
  infoRoboter : Option (Roboter κ)

/-- What a task body does to the outside: a transport call, or a call of
`d.Error(location, message, err, data)`. -/
inductive Effect (κ : Type) where
  | send (channel : Channel) (title body : String) (fields : List (H κ))
  | logError (location message err : String) (data : H κ)
  deriving DecidableEq, Repr

/-- One run of a task body: its effects in order, whether it panicked, and
the context afterwards. -/
structure TaskRun (κ η L : Type) where
  effects : List (Effect κ)
  panicked : Bool
  ctx : DefaultContext κ η L

/-- The body of the task that `d.SendError(title, err, fields...)` hands to
`SafeGo` under the label `x.DefaultContext.SendError`; `err = none` is the
nil error, on which `err.Error()` panics. -/
def DefaultContext.SendError {κ η L : Type} (rs : Roboters κ) (now : Time)
    (d : DefaultContext κ η L) (title : String) (err : Option String) (fields : List (H κ)) :
    TaskRun κ η L :=
  match rs.errorRoboter with
  | none => { effects := [], panicked := false, ctx := d }
  | some errorRoboter =>
      let fields1 := [d.robotHeader now] ++ fields
      match err with
      | none => { effects := [], panicked := true, ctx := d }
      | some msg =>
          match errorRoboter title msg fields1 with
          | some err1 =>
              { effects := [Effect.send Channel.error title msg fields1,
                  Effect.logError "x.DefaultContext.SendError" "send failed" err1 []],
                panicked := false, ctx := d }
          | none =>
              { effects := [Effect.send Channel.error title msg fields1],
                panicked := false, ctx := d }

/-- The body of the task that `d.SendWarning(title, fields...)` hands to
`SafeGo` under the label `x.DefaultContext.SendWarning`. -/
def DefaultContext.SendWarning {κ η L : Type} (rs : Roboters κ) (now : Time)
    (d : DefaultContext κ η L) (title : String) (fields : List (H κ)) : TaskRun κ η L :=
  match rs.warningRoboter with
  | none => { effects := [], panicked := false, ctx := d }
  | some warningRoboter =>
      let fields1 := [d.robotHeader now] ++ fields
      match warningRoboter title "" fields1 with
      | some err =>
          { effects := [Effect.send Channel.warning title "" fields1,
              Effect.logError "x.DefaultContext.SendWarning" "send failed" err []],
            panicked := false, ctx := d }
      | none =>
          { effects := [Effect.send Channel.warning title "" fields1],
            panicked := false, ctx := d }

/-- The body of the task that `d.SendSuccess(title, fields...)` hands to
`SafeGo` under the label `x.DefaultContext.SendSuccess`. -/
def DefaultContext.SendSuccess {κ η L : Type} (rs : Roboters κ) (now : Time)
    (d : DefaultContext κ η L) (title : String) (fields : List (H κ)) : TaskRun κ η L :=
  match rs.successRoboter with
  | none => { effects := [], panicked := false, ctx := d }
  | some successRoboter =>
      let fields1 := [d.robotHeader now] ++ fields
      match successRoboter title "" fields1 with
      | some err =>
          { effects := [Effect.send Channel.success title "" fields1,
              Effect.logError "x.DefaultContext.SendSuccess" "send failed" err []],
            panicked := false, ctx := d }
      | none =>
          { effects := [Effect.send Channel.success title "" fields1],
            panicked := false, ctx := d }

/-- The body of the task that `d.SendInfo(title, fields...)` hands to
`SafeGo` under the label `x.DefaultContext.SendInfo`. -/
def DefaultContext.SendInfo {κ η L : Type} (rs : Roboters κ) (now : Time)
    (d : DefaultContext κ η L) (title : String) (fields : List (H κ)) : TaskRun κ η L :=
  match rs.infoRoboter with
  | none => { effects := [], panicked := false, ctx := d }
  | some infoRoboter =>
      let fields1 := [d.robotHeader now] ++ fields
      match infoRoboter title "" fields1 with
      | some err =>
          { effects := [Effect.send Channel.info title "" fields1,
              Effect.logError "x.DefaultContext.SendInfo" "send failed" err []],
            panicked := false, ctx := d }
      | none =>
          { effects := [Effect.send Channel.info title "" fields1],
            panicked := false, ctx := d }

/-- The transport of a channel. -/
def Roboters.of {κ : Type} (rs : Roboters κ) : Channel → Option (Roboter κ)
  | Channel.error => rs.errorRoboter
  | Channel.warning => rs.warningRoboter
  | Channel.success => rs.successRoboter
  | Channel.info => rs.infoRoboter

/-- The task body of `Send<Channel>`; the error argument is read by the error
channel only. -/
def DefaultContext.sendTask {κ η L : Type} (rs : Roboters κ) (now : Time)
    (d : DefaultContext κ η L) (title : String) (err : Option String) (fields : List (H κ)) :
    Channel → TaskRun κ η L
  | Channel.error => d.SendError rs now title err fields
  | Channel.warning => d.SendWarning rs now title fields
  | Channel.success => d.SendSuccess rs now title fields
  | Channel.info => d.SendInfo rs now title fields

/-- The transport calls among the effects of a run. -/
def transportCalls {κ : Type} (effects : List (Effect κ)) : List (Effect κ) :=
  List.filter (fun e => match e with
    | Effect.send _ _ _ _ => true
    | Effect.logError _ _ _ _ => false) effects

/-- The calls of the error-logging path among the effects of a run. -/
def errorLogs {κ : Type} (effects : List (Effect κ)) : List (Effect κ) :=
  List.filter (fun e => match e with
    | Effect.send _ _ _ _ => false
    | Effect.logError _ _ _ _ => true) effects

/-- How many moves a call of `es.AsyncEmit` still has before it: two for each
handler to launch, one for each running task, one for the return. -/
def WaitState.pending {η γ π σ : Type} (st : WaitState η γ π σ) : Nat :=
  2 * st.todo.length + st.running.length + (if st.returned then 0 else 1)

/-- What holds at every moment of a call of `es.AsyncEmit` on the handler
slice `hs`: the counter is the number of running tasks; the finished, the
running and the not yet launched tasks are together the tasks of `hs`; a call
that has returned has nothing left to launch and nothing running; and the
reports are the labels of the tasks whose handler panicked. -/
structure WaitInv {η γ π σ : Type} (hs : List η) (ctx : γ) (p : π) (st : WaitState η γ π σ) :
    Prop where
  wg_eq : st.wg = st.running.length
  perm : List.Perm (st.finished.map Prod.fst ++ (st.running ++ st.todo.map (waitTask ctx p)))
    (hs.map (waitTask ctx p))
  done : st.returned = true → st.todo = [] ∧ st.running = []
  reports_eq : st.reports
    = (st.finished.filter (fun e => !e.2)).map (fun e => e.1.label)

/-! ## Example inputs -/

/-- A behaviour in which the handler `"bad"` panics and every other handler
returns after counting one call in the world. -/
def badPanics (h : String) (_ctx : Unit) (_payload : Nat) (s : Nat) : Outcome Nat :=
  if h = "bad" then Outcome.panic s else Outcome.ok (s + 1)

/-- A behaviour in which every handler returns after counting one call. -/
def allReturn (_h : String) (_ctx : Unit) (_payload : Nat) (s : Nat) : Outcome Nat :=
  Outcome.ok (s + 1)

/-- A trace id generator that hands out `"t0"`, `"t1"`, `"t2"`, ... -/
def countingGen : TraceGen :=
  { ids := fun i => "t" ++ toString i, pos := 0 }

/-- A context for the endpoint `"api"` whose bus holds the handlers `"bad"`
and `"good"` under `"n"`. -/
def busyContext : DefaultContext Unit String Unit :=
  { mapping := [("k", Any.str "v")], Header := (NewHeader "api" countingGen).1, logger := (),
    event := some (newEvent.On "n" ["bad", "good"]) }

/-- The state in which the call of `AsyncEmitAndWait` on `busyContext` has
returned after `"good"` finished first and `"bad"` panicked. -/
def busyReturned : WaitState String Unit Nat Nat :=
  { todo := [], wg := 0, running := [],
    finished := [({ label := "x.event.AsyncEmit", handler := "good", ctx := (), payload := 7 }, true),
                 ({ label := "x.event.AsyncEmit", handler := "bad", ctx := (), payload := 7 }, false)],
    reports := ["x.event.AsyncEmit"], world := 1, returned := true }

/-- A new context for the endpoint `"api"` and the path `"/users"`. -/
def freshContext : DefaultContext String String Unit :=
  (NewDefaultContext (fun _ => ()) "api" "/users" countingGen).1

/-- A transport that accepts every message. -/
def acceptAll : Roboter String :=
  fun _ _ _ => none

/-- Transports with the error channel configured only. -/
def errorOnly : Roboters String :=
  { errorRoboter := some acceptAll, warningRoboter := none, successRoboter := none,
    infoRoboter := none }

/-- The seventh of March 2024, in the hour from nine to ten. -/
def sampleTime : Time :=
  { year := 2024, month := 3, day := 7, hour := 9 }

/-! ## sync.Map facts -/

theorem SyncMap.Load_Delete_same {α : Type} (m : SyncMap α) (key : String) :
    SyncMap.Load (SyncMap.Delete m key) key = none := by
  induction m with
  | nil => rfl
  | cons e rest ih =>
      obtain ⟨k, v⟩ := e
      by_cases hk : k = key
      · simpa [SyncMap.Delete, hk] using ih
      · simpa [SyncMap.Delete, SyncMap.Load, hk] using ih

theorem SyncMap.Load_Delete_other {α : Type} (m : SyncMap α) (key key1 : String)
    (hne : key1 ≠ key) : SyncMap.Load (SyncMap.Delete m key) key1 = SyncMap.Load m key1 := by
  induction m with
  | nil => rfl
  | cons e rest ih =>
      obtain ⟨k, v⟩ := e
      by_cases hk : k = key
      · subst hk
        have hk1 : k ≠ key1 := fun h => hne h.symm
        simpa [SyncMap.Delete, SyncMap.Load, hk1] using ih
      · by_cases hk1 : k = key1
        · subst hk1
          simp [SyncMap.Delete, SyncMap.Load, hk]
        · simpa [SyncMap.Delete, SyncMap.Load, hk, hk1] using ih

theorem SyncMap.Load_Store_same {α : Type} (m : SyncMap α) (key : String) (value : α) :
    SyncMap.Load (SyncMap.Store m key value) key = some value := by
  simp [SyncMap.Store, SyncMap.Load]

theorem SyncMap.Load_Store_other {α : Type} (m : SyncMap α) (key key1 : String) (value : α)
    (hne : key1 ≠ key) :
    SyncMap.Load (SyncMap.Store m key value) key1 = SyncMap.Load m key1 := by
  have hne1 : key ≠ key1 := fun h => hne h.symm
  simp [SyncMap.Store, SyncMap.Load, hne1, SyncMap.Load_Delete_other m key key1 hne]

/-! ## Event bus facts -/

theorem event.registered_On_same {η : Type} (es : event η) (eventName : String)
    (handlers : List η) :
    (es.On eventName handlers).registered eventName = es.registered eventName ++ handlers := by
  unfold event.On event.registered SyncMap.LoadOrStore
  cases hl : SyncMap.Load es.subscribers eventName with
  | none => simp [SyncMap.Load_Store_same]
  | some st =>
      cases st with
      | handlers hs => simp [SyncMap.Load_Store_same]
      | foreign => simp [SyncMap.Load_Store_same]

theorem event.Load_On_same {η : Type} (es : event η) (eventName : String) (handlers : List η) :
    SyncMap.Load (es.On eventName handlers).subscribers eventName
      = some (Stored.handlers (es.registered eventName ++ handlers)) := by
  unfold event.On event.registered SyncMap.LoadOrStore
  cases hl : SyncMap.Load es.subscribers eventName with
  | none => simp [SyncMap.Load_Store_same]
  | some st =>
      cases st with
      | handlers hs => simp [SyncMap.Load_Store_same]
      | foreign => simp [SyncMap.Load_Store_same]

theorem event.Load_On_other {η : Type} (es : event η) (eventName name1 : String)
    (handlers : List η) (hne : name1 ≠ eventName) :
    SyncMap.Load (es.On eventName handlers).subscribers name1
      = SyncMap.Load es.subscribers name1 := by
  unfold event.On SyncMap.LoadOrStore
  cases hl : SyncMap.Load es.subscribers eventName with
  | none => simp [SyncMap.Load_Store_other _ _ _ _ hne]
  | some st =>
      cases st with
      | handlers hs => simp [SyncMap.Load_Store_other _ _ _ _ hne]
      | foreign => simp [SyncMap.Load_Store_other _ _ _ _ hne]

theorem event.Load_Off_same {η : Type} (es : event η) (eventName : String) :
    SyncMap.Load (es.Off eventName).subscribers eventName = none := by
  unfold event.Off
  cases hl : SyncMap.Load es.subscribers eventName with
  | none => simpa using hl
  | some st => simp [SyncMap.Load_Delete_same]

theorem event.Load_Off_other {η : Type} (es : event η) (eventName name1 : String)
    (hne : name1 ≠ eventName) :
    SyncMap.Load (es.Off eventName).subscribers name1 = SyncMap.Load es.subscribers name1 := by
  unfold event.Off
  cases hl : SyncMap.Load es.subscribers eventName with
  | none => rfl
  | some st => simp [SyncMap.Load_Delete_other _ _ _ hne]

theorem event.Emit_eq_runHandlers {η γ π σ : Type} (behave : η → γ → π → σ → Outcome σ)
    (es : event η) (ctx : γ) (eventName : String) (payload : π) (s : σ) :
    es.Emit behave ctx eventName payload s
      = runHandlers behave ctx payload (es.registered eventName) s := by
  unfold event.Emit event.registered
  cases hl : SyncMap.Load es.subscribers eventName with
  | none => simp [runHandlers]
  | some st =>
      cases st with
      | handlers hs => simp
      | foreign => simp [runHandlers]

/-- Handlers that all return are all called, in order, and the loop returns. -/
theorem runHandlers_all_return {η γ π σ : Type} (behave : η → γ → π → σ → Outcome σ) (ctx : γ)
    (payload : π) (hs : List η)
    (hret : ∀ h ∈ hs, ∀ s1, (behave h ctx payload s1).returned = true) (s : σ) :
    (runHandlers behave ctx payload hs s).trace
        = hs.map (fun h => { handler := h, ctx := ctx, payload := payload })
      ∧ (runHandlers behave ctx payload hs s).final.returned = true := by
  induction hs generalizing s with
  | nil => simp [runHandlers, Outcome.returned]
  | cons h rest ih =>
      have hh := hret h (List.mem_cons_self _ _) s
      have ih1 := fun s1 => ih (fun h1 hm s2 => hret h1 (List.mem_cons_of_mem _ hm) s2) s1
      unfold runHandlers
      cases hb : behave h ctx payload s with
      | ok s1 => simpa using ih1 s1
      | panic s1 => simp [hb, Outcome.returned] at hh

/-- The calls of the loop are always an initial part of the handler list. -/
theorem runHandlers_trace_prefix {η γ π σ : Type} (behave : η → γ → π → σ → Outcome σ) (ctx : γ)
    (payload : π) (hs : List η) (s : σ) :
    (runHandlers behave ctx payload hs s).trace
      <+: hs.map (fun h => { handler := h, ctx := ctx, payload := payload }) := by
  induction hs generalizing s with
  | nil => simp [runHandlers]
  | cons h rest ih =>
      unfold runHandlers
      cases hb : behave h ctx payload s with
      | ok s1 =>
          simp only [List.map_cons]
          exact List.cons_prefix_cons.mpr ⟨rfl, ih s1⟩
      | panic s1 =>
          simp only [List.map_cons]
          exact ⟨_, rfl⟩

theorem applyBusOps_Load_none {η : Type} (ops : List (BusOp η)) (eventName : String)
    (hnever : ∀ hs, BusOp.On eventName hs ∉ ops) (es : event η)
    (hes : SyncMap.Load es.subscribers eventName = none) :
    SyncMap.Load (applyBusOps ops es).subscribers eventName = none := by
  induction ops generalizing es with
  | nil => simpa [applyBusOps] using hes
  | cons op rest ih =>
      have hrest : ∀ hs, BusOp.On eventName hs ∉ rest :=
        fun hs hm => hnever hs (List.mem_cons_of_mem _ hm)
      have hstep : SyncMap.Load (op.apply es).subscribers eventName = none := by
        cases op with
        | On name1 hs1 =>
            have hne : eventName ≠ name1 := by
              intro h
              subst h
              exact hnever hs1 (List.mem_cons_self _ _)
            simpa [BusOp.apply, event.Load_On_other es name1 eventName hs1 hne] using hes
        | Off name1 =>
            by_cases hne : eventName = name1
            · subst hne
              simpa [BusOp.apply] using event.Load_Off_same es eventName
            · simpa [BusOp.apply, event.Load_Off_other es name1 eventName hne] using hes
      simpa [applyBusOps] using ih hrest (op.apply es) hstep

theorem DefaultContext.takeEvent_takeEvent {κ η L : Type} (d : DefaultContext κ η L) :
    d.takeEvent.2.takeEvent.1 = d.takeEvent.1 := by
  unfold DefaultContext.takeEvent
  cases hd : d.event with
  | none => simp
  | some es => simp [hd]

/-! ## C1: On appends, Emit fires in subscription order -/

/-- C1 (as amended): after `On(n, hs1...)` and then `On(n, hs2...)`, when no
handler registered under `n` panics, `Emit(ctx, n, p)` returns and has
called, in this order and each once with `(ctx, p)`, the handlers that were
registered under `n` before, then those of `hs1`, then those of `hs2`, and
nothing else. -/
theorem event.Emit_after_On_On {η γ π σ : Type} (behave : η → γ → π → σ → Outcome σ)
    (es : event η) (n : String) (hs1 hs2 : List η) (ctx : γ) (p : π) (s : σ)
    (hret : ∀ h ∈ es.registered n ++ hs1 ++ hs2, ∀ s1, (behave h ctx p s1).returned = true) :
    (((es.On n hs1).On n hs2).Emit behave ctx n p s).trace
        = (es.registered n ++ hs1 ++ hs2).map
            (fun h => { handler := h, ctx := ctx, payload := p })
      ∧ (((es.On n hs1).On n hs2).Emit behave ctx n p s).final.returned = true := by
  rw [event.Emit_eq_runHandlers, event.registered_On_same, event.registered_On_same]
  exact runHandlers_all_return behave ctx p _ hret s

/-- C1, witness: a bus that already holds `"h0"` under `"n"`. -/
theorem event.Emit_after_On_On_witness :
    ((((newEvent.On "n" ["h0"]).On "n" ["h1", "h2"]).On "n" ["h3"]).Emit
        allReturn () "n" 7 0).trace
        = [{ handler := "h0", ctx := (), payload := 7 }, { handler := "h1", ctx := (), payload := 7 },
           { handler := "h2", ctx := (), payload := 7 }, { handler := "h3", ctx := (), payload := 7 }]
      ∧ ((((newEvent.On "n" ["h0"]).On "n" ["h1", "h2"]).On "n" ["h3"]).Emit
        allReturn () "n" 7 0).final.returned = true :=
  event.Emit_after_On_On allReturn (newEvent.On "n" ["h0"]) "n" ["h1", "h2"] ["h3"] () 7 0
    (fun _ _ _ => rfl)

/-- C1, counterexample: with `hs1 = ["bad"]`, whose handler panics, and
`hs2 = ["late"]`, the emit calls `"bad"` only: the panic leaves the loop and
`"late"` is never called. -/
theorem event.Emit_after_On_On_counterexample :
    (((newEvent.On "n" ["bad"]).On "n" ["late"]).Emit badPanics () "n" 7 0).trace
        = [{ handler := "bad", ctx := (), payload := 7 }]
      ∧ (((newEvent.On "n" ["bad"]).On "n" ["late"]).Emit badPanics () "n" 7 0).trace
        ≠ [{ handler := "bad", ctx := (), payload := 7 },
           { handler := "late", ctx := (), payload := 7 }]
      ∧ (((newEvent.On "n" ["bad"]).On "n" ["late"]).Emit badPanics () "n" 7 0).final
        = Outcome.panic 0 := by
  decide

/-! ## C2: a name without a handler list is silent -/

theorem event.silent_of_Load_none {η γ π σ : Type} (behave : η → γ → π → σ → Outcome σ)
    (es : event η) (n : String) (ctx : γ) (p : π) (s : σ)
    (hl : SyncMap.Load es.subscribers n = none) :
    es.Emit behave ctx n p s = { trace := [], final := Outcome.ok s }
      ∧ es.AsyncEmitNoWait ctx n p = []
      ∧ (es.AsyncEmit n s : WaitState η γ π σ)
          = { todo := [], wg := 0, running := [], finished := [], reports := [],
              world := s, returned := true }
      ∧ ∀ m, event.AsyncEmit.step behave ctx p m (es.AsyncEmit n s) = none := by
  have hw : (es.AsyncEmit n s : WaitState η γ π σ)
      = { todo := [], wg := 0, running := [], finished := [], reports := [],
          world := s, returned := true } := by
    simp [event.AsyncEmit, hl]
  refine ⟨by simp [event.Emit, hl], by simp [event.AsyncEmitNoWait, hl], hw, ?_⟩
  intro m
  rw [hw]
  cases m <;> simp [event.AsyncEmit.step]

/-- C2: after `Off(n)` an `Emit(ctx, n, p)` calls no handler, whatever the bus
held under `n` before; and for a name `n` that no `On` of the bus's history
names, `Emit`, `AsyncEmitNoWait` and `AsyncEmit` call no handler and launch no
task (the waiting variant has returned and no move of it can happen), they
leave the world as it is, and the context's bus, store and header are the
same after each of them. -/
theorem event.silent_without_handlers {κ η L γ π σ : Type}
    (behave : η → γ → π → σ → Outcome σ) (es0 : event η) (ops : List (BusOp η))
    (d : DefaultContext κ η L) (n : String) (ctx : γ) (p : π) (s : σ)
    (hnever : ∀ hs, BusOp.On n hs ∉ ops) :
    (es0.Off n).Emit behave ctx n p s = { trace := [], final := Outcome.ok s }
      ∧ (applyBusOps ops newEvent).Emit behave ctx n p s
          = { trace := [], final := Outcome.ok s }
      ∧ (applyBusOps ops newEvent).AsyncEmitNoWait ctx n p = []
      ∧ ((applyBusOps ops newEvent).AsyncEmit n s : WaitState η γ π σ)
          = { todo := [], wg := 0, running := [], finished := [], reports := [],
              world := s, returned := true }
      ∧ (∀ m, event.AsyncEmit.step behave ctx p m ((applyBusOps ops newEvent).AsyncEmit n s)
          = none)
      ∧ ((d.Emit behave ctx n p s).2.takeEvent.1 = d.takeEvent.1
          ∧ (d.AsyncEmit ctx n p).2.takeEvent.1 = d.takeEvent.1
          ∧ (d.AsyncEmitAndWait n s : WaitState η γ π σ × DefaultContext κ η L).2.takeEvent.1
              = d.takeEvent.1)
      ∧ ((d.Emit behave ctx n p s).2.mapping = d.mapping
          ∧ (d.Emit behave ctx n p s).2.Header = d.Header) := by
  have hoff := event.silent_of_Load_none behave (es0.Off n) n ctx p s
    (event.Load_Off_same es0 n)
  have hnone := event.silent_of_Load_none behave (applyBusOps ops newEvent) n ctx p s
    (applyBusOps_Load_none ops n hnever newEvent rfl)
  refine ⟨hoff.1, hnone.1, hnone.2.1, hnone.2.2.1, hnone.2.2.2, ?_, ?_⟩
  · exact ⟨DefaultContext.takeEvent_takeEvent d, DefaultContext.takeEvent_takeEvent d,
      DefaultContext.takeEvent_takeEvent d⟩
  · unfold DefaultContext.Emit DefaultContext.takeEvent
    cases d.event <;> simp

/-- C2, witness: `"n"` holds a handler before the `Off`, and a history that
subscribes other names only. -/
theorem event.silent_without_handlers_witness :
    ((newEvent.On "n" ["h"]).Off "n").Emit allReturn () "n" 7 0
        = { trace := [], final := Outcome.ok 0 }
      ∧ (applyBusOps [BusOp.On "a" ["h"], BusOp.Off "n", BusOp.On "b" []] newEvent).Emit
          allReturn () "n" 7 0 = { trace := [], final := Outcome.ok 0 }
      ∧ (applyBusOps [BusOp.On "a" ["h"], BusOp.Off "n", BusOp.On "b" []]
          newEvent).AsyncEmitNoWait () "n" 7 = [] :=
  have h := event.silent_without_handlers (κ := Unit) (L := Unit) allReturn
    (newEvent.On "n" ["h"]) [BusOp.On "a" ["h"], BusOp.Off "n", BusOp.On "b" []]
    { mapping := [], Header := (NewHeader "api" { ids := fun _ => "t", pos := 0 }).1,
      logger := (), event := none }
    "n" () 7 0 (by intro hs hm; simp at hm)
  ⟨h.1, h.2.1, h.2.2.1⟩

/-! ## C3: the waiting emit returns after every handler has completed -/

theorem perm_cons_eraseIdx {α : Type} (l : List α) (i : Nat) (a : α)
    (h : l[i]? = some a) : List.Perm (a :: l.eraseIdx i) l := by
  induction l generalizing i with
  | nil => simp at h
  | cons x xs ih =>
      cases i with
      | zero =>
          simp at h
          subst h
          simp
      | succ j =>
          simp at h
          simp only [List.eraseIdx_cons_succ]
          exact (List.Perm.swap x a _).trans ((ih j h).cons x)

theorem WaitInv.init {η γ π σ : Type} (es : event η) (n : String) (ctx : γ) (p : π) (w : σ) :
    WaitInv (es.registered n) ctx p (es.AsyncEmit n w : WaitState η γ π σ)
      ∧ (es.AsyncEmit n w : WaitState η γ π σ).pending
          = 2 * (es.registered n).length
            + (if (es.AsyncEmit n w : WaitState η γ π σ).returned then 0 else 1) := by
  unfold event.AsyncEmit event.registered WaitState.pending
  cases hl : SyncMap.Load es.subscribers n with
  | none => exact ⟨⟨by simp, by simp, by simp, by simp⟩, by simp⟩
  | some stored =>
      cases stored with
      | handlers hs => exact ⟨⟨by simp, by simp, by simp, by simp⟩, by simp⟩
      | foreign => exact ⟨⟨by simp, by simp, by simp, by simp⟩, by simp⟩

theorem WaitInv.step {η γ π σ : Type} (behave : η → γ → π → σ → Outcome σ) (hs : List η)
    (ctx : γ) (p : π) (m : Move) (st st1 : WaitState η γ π σ)
    (hstep : event.AsyncEmit.step behave ctx p m st = some st1) (hinv : WaitInv hs ctx p st) :
    WaitInv hs ctx p st1 ∧ st1.pending + 1 = st.pending := by
  obtain ⟨hwg, hperm, hdone, hrep⟩ := hinv
  cases m with
  | loop =>
      simp only [event.AsyncEmit.step] at hstep
      cases hr : st.returned with
      | true => simp [hr] at hstep
      | false =>
          cases ht : st.todo with
          | nil => simp [hr, ht] at hstep
          | cons h rest =>
              simp [hr, ht] at hstep
              subst hstep
              refine ⟨⟨?_, ?_, ?_, ?_⟩, ?_⟩
              · simp [SafeGo, hwg]
              · simpa [SafeGo, ht, waitTask] using hperm
              · simp [hr]
              · simpa using hrep
              · simp [WaitState.pending, SafeGo, hr, ht]
                omega
  | finish i =>
      simp only [event.AsyncEmit.step] at hstep
      cases hg : st.running[i]? with
      | none => simp [hg] at hstep
      | some t =>
          simp [hg] at hstep
          subst hstep
          have hpe := perm_cons_eraseIdx st.running i t hg
          have hlen : (st.running.eraseIdx i).length + 1 = st.running.length := by
            simpa using hpe.length_eq
          have hnr : st.returned = false := by
            cases hr : st.returned with
            | false => rfl
            | true =>
                have := (hdone hr).2
                simp [this] at hg
          refine ⟨⟨?_, ?_, ?_, ?_⟩, ?_⟩
          · simp only [hwg]
            omega
          · refine List.Perm.trans ?_ hperm
            simp only [List.map_append, List.map_cons, List.map_nil, List.append_assoc,
              List.singleton_append]
            refine List.Perm.append_left _ ?_
            exact hpe.append_right _
          · simp [hnr]
          · cases hb : behave t.handler t.ctx t.payload st.world with
            | ok s1 => simp [SafeGo.settle, Outcome.returned, List.filter_append, hrep]
            | panic s1 => simp [SafeGo.settle, Outcome.returned, List.filter_append, hrep]
          · simp only [WaitState.pending]
            omega
  | wait =>
      simp only [event.AsyncEmit.step] at hstep
      cases hr : st.returned with
      | true => simp [hr] at hstep
      | false =>
          cases ht : st.todo with
          | cons h rest => simp [hr, ht] at hstep
          | nil =>
              by_cases hz : st.wg = 0
              · simp [hr, ht, hz] at hstep
                subst hstep
                have hrun : st.running = [] := by
                  have : (st.running.length : Int) = 0 := by rw [← hwg]; exact hz
                  exact List.length_eq_zero.mp (by exact_mod_cast this)
                refine ⟨⟨?_, ?_, ?_, ?_⟩, ?_⟩
                · simp [hrun]
                · simpa [ht, hrun] using hperm
                · intro _
                  simp [hrun]
                · simpa using hrep
                · simp [WaitState.pending, hr, ht, hrun]
              · simp [hr, ht, hz] at hstep

theorem WaitInv.run {η γ π σ : Type} (behave : η → γ → π → σ → Outcome σ) (hs : List η)
    (ctx : γ) (p : π) (ms : List Move) (st st1 : WaitState η γ π σ)
    (hrun : event.AsyncEmit.run behave ctx p ms st = some st1) (hinv : WaitInv hs ctx p st) :
    WaitInv hs ctx p st1 ∧ ms.length + st1.pending = st.pending := by
  induction ms generalizing st with
  | nil =>
      simp [event.AsyncEmit.run] at hrun
      subst hrun
      exact ⟨hinv, by simp⟩
  | cons m rest ih =>
      simp only [event.AsyncEmit.run] at hrun
      cases hs1 : event.AsyncEmit.step behave ctx p m st with
      | none => simp [hs1] at hrun
      | some st2 =>
          simp only [hs1] at hrun
          have h2 := WaitInv.step behave hs ctx p m st st2 hs1 hinv
          have h3 := ih st2 hrun h2.1
          refine ⟨h3.1, ?_⟩
          simp only [List.length_cons]
          omega

theorem WaitInv.progress {η γ π σ : Type} (behave : η → γ → π → σ → Outcome σ) (hs : List η)
    (ctx : γ) (p : π) (st : WaitState η γ π σ) (hinv : WaitInv hs ctx p st)
    (hr : st.returned = false) :
    ∃ m st1, event.AsyncEmit.step behave ctx p m st = some st1 := by
  cases ht : st.todo with
  | cons h rest =>
      exact ⟨Move.loop, by simp [event.AsyncEmit.step, hr, ht]⟩
  | nil =>
      cases hrun : st.running with
      | cons t rest =>
          exact ⟨Move.finish 0, by simp [event.AsyncEmit.step, hrun]⟩
      | nil =>
          have hz : st.wg = 0 := by simp [hinv.wg_eq, hrun]
          exact ⟨Move.wait, by simp [event.AsyncEmit.step, hr, ht, hz]⟩

theorem WaitInv.completes {η γ π σ : Type} (behave : η → γ → π → σ → Outcome σ) (hs : List η)
    (ctx : γ) (p : π) (k : Nat) (st : WaitState η γ π σ) (hinv : WaitInv hs ctx p st)
    (hk : st.pending = k) :
    ∃ ms st1, event.AsyncEmit.run behave ctx p ms st = some st1 ∧ st1.returned = true := by
  induction k generalizing st with
  | zero =>
      refine ⟨[], st, rfl, ?_⟩
      cases hr : st.returned with
      | true => rfl
      | false => simp [WaitState.pending, hr] at hk
  | succ k ih =>
      cases hr : st.returned with
      | true => exact ⟨[], st, rfl, hr⟩
      | false =>
          obtain ⟨m, st2, hstep⟩ := WaitInv.progress behave hs ctx p st hinv hr
          have h2 := WaitInv.step behave hs ctx p m st st2 hstep hinv
          obtain ⟨ms, st1, hrun, hret⟩ := ih st2 h2.1 (by omega)
          exact ⟨m :: ms, st1, by simp [event.AsyncEmit.run, hstep, hrun], hret⟩

/-- C3: in every run of `AsyncEmitAndWait(n, payload)`, under every schedule
of the launched tasks and whether handlers return or panic: once the call has
returned, nothing is left to launch, nothing is running, and the finished
tasks are the tasks launched through `SafeGo` for the handlers registered
under `n` at the call, one for each; every panic was recovered and reported
under the task's label; the run has made exactly as many moves as its
handlers allow (two for each, one for the return); and from every moment of a
run the call can still go on to its return, with a next move whenever it has
not returned, so a panicking handler never leaves the caller blocked. -/
theorem DefaultContext.AsyncEmitAndWait_returns_after_all {κ η L γ π σ : Type}
    (behave : η → γ → π → σ → Outcome σ) (d : DefaultContext κ η L) (n : String) (ctx : γ)
    (p : π) (w : σ) (ms : List Move) (st : WaitState η γ π σ)
    (hrun : event.AsyncEmit.run behave ctx p ms (d.AsyncEmitAndWait n w).1 = some st) :
    (st.returned = true →
        st.todo = [] ∧ st.running = []
          ∧ List.Perm (st.finished.map Prod.fst)
              ((d.takeEvent.1.registered n).map (waitTask ctx p)))
      ∧ st.reports = (st.finished.filter (fun e => !e.2)).map (fun e => e.1.label)
      ∧ ms.length + st.pending
          = 2 * (d.takeEvent.1.registered n).length
            + (if (d.AsyncEmitAndWait n w : WaitState η γ π σ × DefaultContext κ η L).1.returned
                then 0 else 1)
      ∧ (∃ ms1 st1, event.AsyncEmit.run behave ctx p ms1 st = some st1 ∧ st1.returned = true)
      ∧ (st.returned = false → ∃ m st1, event.AsyncEmit.step behave ctx p m st = some st1) := by
  have hinit := WaitInv.init (σ := σ) d.takeEvent.1 n ctx p w
  have h := WaitInv.run behave (d.takeEvent.1.registered n) ctx p ms _ st hrun hinit.1
  refine ⟨?_, h.1.reports_eq, ?_, ?_, ?_⟩
  · intro hr
    obtain ⟨ht, hrn⟩ := h.1.done hr
    refine ⟨ht, hrn, ?_⟩
    simpa [ht, hrn] using h.1.perm
  · rw [h.2]
    exact hinit.2
  · exact WaitInv.completes behave _ ctx p _ st h.1 rfl
  · exact WaitInv.progress behave _ ctx p st h.1

/-- C3, witness: two handlers, `"bad"` panics; both are launched, `"good"`
finishes first, then `"bad"`, then the wait returns. -/
theorem DefaultContext.AsyncEmitAndWait_returns_after_all_witness :
    event.AsyncEmit.run badPanics () 7
        [Move.loop, Move.loop, Move.finish 1, Move.finish 0, Move.wait]
        (busyContext.AsyncEmitAndWait "n" 0).1 = some busyReturned
      ∧ List.Perm (busyReturned.finished.map Prod.fst)
          ((busyContext.takeEvent.1.registered "n").map (waitTask () 7))
      ∧ busyReturned.reports = ["x.event.AsyncEmit"] :=
  have hrun : event.AsyncEmit.run badPanics () 7
      [Move.loop, Move.loop, Move.finish 1, Move.finish 0, Move.wait]
      (busyContext.AsyncEmitAndWait "n" 0).1 = some busyReturned := by decide
  have h := DefaultContext.AsyncEmitAndWait_returns_after_all badPanics busyContext "n" () 7 0
    [Move.loop, Move.loop, Move.finish 1, Move.finish 0, Move.wait] busyReturned hrun
  ⟨hrun, (h.1 rfl).2.2, h.2.1⟩

/-! ## C4: the store is last-write-wins with a found flag -/

theorem DefaultContext.Get_Set_same {κ η L : Type} (d : DefaultContext κ η L) (key : String)
    (val : Any κ) : (d.Set key val).Get key = (val, true) := by
  simp [DefaultContext.Get, DefaultContext.Set, SyncMap.Load_Store_same]

theorem DefaultContext.Get_Set_other {κ η L : Type} (d : DefaultContext κ η L)
    (key key1 : String) (val : Any κ) (hne : key1 ≠ key) :
    (d.Set key val).Get key1 = d.Get key1 := by
  simp [DefaultContext.Get, DefaultContext.Set, SyncMap.Load_Store_other _ _ _ _ hne]

theorem applySets_append {κ η L : Type} (a b : List (String × Any κ))
    (d : DefaultContext κ η L) : applySets (a ++ b) d = applySets b (applySets a d) := by
  simp [applySets, List.foldl_append]

theorem DefaultContext.Get_applySets_other {κ η L : Type} (sets : List (String × Any κ))
    (key : String) (hne : ∀ e ∈ sets, e.1 ≠ key) (d : DefaultContext κ η L) :
    (applySets sets d).Get key = d.Get key := by
  induction sets generalizing d with
  | nil => rfl
  | cons e rest ih =>
      have h1 : e.1 ≠ key := hne e (List.mem_cons_self _ _)
      have h2 := ih (fun e1 hm => hne e1 (List.mem_cons_of_mem _ hm)) (d.Set e.1 e.2)
      have h3 := DefaultContext.Get_Set_other d e.1 key e.2 (fun h => h1 h.symm)
      simpa [applySets, h3] using h2

/-- C4: on a new context, after any sequence of `Set` calls, `Get(key)` gives
`(val, true)` for the `val` of the last `Set(key, val)` of the sequence,
whatever was written before it and to other keys after it; and when the
sequence has no `Set(key, ...)`, `Get(key)` gives the nil value with the flag
`false` (a flag, not an error). -/
theorem DefaultContext.Get_last_write_wins {κ η L : Type} (loggerManager : String → L)
    (endpoint : Endpoint) (path : String) (g : TraceGen) (sets : List (String × Any κ))
    (key : String) :
    (∀ pre val post, sets = pre ++ (key, val) :: post → (∀ e ∈ post, e.1 ≠ key) →
        (applySets sets (NewDefaultContext (η := η) loggerManager endpoint path g).1).Get key
          = (val, true))
      ∧ ((∀ e ∈ sets, e.1 ≠ key) →
        (applySets sets (NewDefaultContext (η := η) loggerManager endpoint path g).1).Get key
          = (Any.nil, false)) := by
  constructor
  · intro pre val post hsets hpost
    subst hsets
    have h1 : pre ++ (key, val) :: post = (pre ++ [(key, val)]) ++ post := by simp
    rw [h1, applySets_append, DefaultContext.Get_applySets_other post key hpost,
      applySets_append]
    exact DefaultContext.Get_Set_same _ key val
  · intro hnone
    rw [DefaultContext.Get_applySets_other sets key hnone]
    rfl

/-- C4, witness: `"k"` is written twice, with writes to `"j"` in between and
after; `"z"` is never written. -/
theorem DefaultContext.Get_last_write_wins_witness :
    (applySets [("k", Any.str "a"), ("j", Any.nil), ("k", Any.other "7"), ("j", Any.str "b")]
        (NewDefaultContext (κ := Unit) (η := Unit) (fun _ => ()) "api" "/users"
          countingGen).1).Get "k" = (Any.other "7", true)
      ∧ (applySets [("k", Any.str "a"), ("j", Any.nil), ("k", Any.other "7"), ("j", Any.str "b")]
        (NewDefaultContext (κ := Unit) (η := Unit) (fun _ => ()) "api" "/users"
          countingGen).1).Get "z" = (Any.nil, false) :=
  ⟨(DefaultContext.Get_last_write_wins (κ := Unit) (η := Unit) (fun _ => ()) "api" "/users"
      countingGen [("k", Any.str "a"), ("j", Any.nil), ("k", Any.other "7"), ("j", Any.str "b")]
      "k").1 [("k", Any.str "a"), ("j", Any.nil)] (Any.other "7") [("j", Any.str "b")] rfl
      (by decide),
   (DefaultContext.Get_last_write_wins (κ := Unit) (η := Unit) (fun _ => ()) "api" "/users"
      countingGen [("k", Any.str "a"), ("j", Any.nil), ("k", Any.other "7"), ("j", Any.str "b")]
      "z").2 (by decide)⟩

/-! ## C5: Clone inherits identity, not state -/

/-- C5: `d.Clone()` gives a context with the endpoint and the logger of `d`,
whose trace id is the next id of the generator (so it differs from the trace
id of `d` whenever that next id does, as it does when the generator never
repeats and the trace id of `d` came from it), whose store is empty (`Get`
finds no key, `JwtClaim` gives the nil claim), whose bus does not exist yet
and has no handler under any name (an emit on it calls nothing); `d` itself is
as it was. -/
theorem DefaultContext.Clone_inherits_identity_only {κ η L γ π σ : Type}
    (d : DefaultContext κ η L) (g : TraceGen) :
    (d.Clone g).ctx.Header.Endpoint = d.Header.Endpoint
      ∧ (d.Clone g).ctx.logger = d.logger
      ∧ (d.Clone g).ctx.Header.TraceId = (generateTraceId g).1
      ∧ (d.Clone g).gen = (generateTraceId g).2
      ∧ ((generateTraceId g).1 ≠ d.Header.TraceId →
          (d.Clone g).ctx.Header.TraceId ≠ d.Header.TraceId)
      ∧ (Function.Injective g.ids → (∃ i, i < g.pos ∧ d.Header.TraceId = g.ids i) →
          (d.Clone g).ctx.Header.TraceId ≠ d.Header.TraceId)
      ∧ (∀ key, (d.Clone g).ctx.Get key = (Any.nil, false))
      ∧ (d.Clone g).ctx.JwtClaim = Except.ok none
      ∧ (d.Clone g).ctx.event = none
      ∧ (∀ n, (d.Clone g).ctx.takeEvent.1.registered n = [])
      ∧ (∀ (behave : η → γ → π → σ → Outcome σ) (self : γ) (n : String) (p : π) (s : σ),
          ((d.Clone g).ctx.Emit behave self n p s).1 = { trace := [], final := Outcome.ok s })
      ∧ (d.Clone g).receiver = d := by
  refine ⟨rfl, rfl, rfl, rfl, fun h => h, ?_, fun _ => rfl, rfl, rfl, fun _ => rfl,
    fun _ _ _ _ _ => rfl, rfl⟩
  rintro hinj ⟨i, hi, hd⟩ heq
  have h1 : g.ids g.pos = g.ids i := by
    have h2 : (d.Clone g).ctx.Header.TraceId = g.ids g.pos := rfl
    rw [← h2, heq, hd]
  have h3 := hinj h1
  omega

/-- C5, witness: the clone of a context that holds a value under `"k"` and
handlers under `"n"`, made with the generator as the construction left it. -/
theorem DefaultContext.Clone_inherits_identity_only_witness :
    (busyContext.Clone (generateTraceId countingGen).2).ctx.Header.TraceId
        ≠ busyContext.Header.TraceId
      ∧ busyContext.Get "k" = (Any.str "v", true)
      ∧ (busyContext.Clone (generateTraceId countingGen).2).ctx.Get "k" = (Any.nil, false)
      ∧ busyContext.takeEvent.1.registered "n" = ["bad", "good"]
      ∧ (busyContext.Clone (generateTraceId countingGen).2).ctx.takeEvent.1.registered "n" = []
      ∧ (busyContext.Clone (generateTraceId countingGen).2).ctx.Header.Endpoint = "api" :=
  have h := DefaultContext.Clone_inherits_identity_only (γ := Unit) (π := Nat) (σ := Nat)
    busyContext (generateTraceId countingGen).2
  ⟨h.2.2.2.2.1 (by decide), by decide, h.2.2.2.2.2.2.1 "k", by decide,
    h.2.2.2.2.2.2.2.2.2.1 "n", h.1⟩

/-! ## C6: the claim accessor -/

/-- What `JwtClaim` does in every store state: it gives the nil claim when the
reserved key is absent, the claim when the key holds one, and it panics when
the key holds anything else, the nil interface included. -/
theorem DefaultContext.JwtClaim_cases {κ η L : Type} (d : DefaultContext κ η L) :
    (SyncMap.Load d.mapping jwtClaimKey = none → d.JwtClaim = Except.ok none)
      ∧ (∀ c, SyncMap.Load d.mapping jwtClaimKey = some (Any.claim c) →
          d.JwtClaim = Except.ok (some c))
      ∧ (∀ val, SyncMap.Load d.mapping jwtClaimKey = some val → (∀ c, val ≠ Any.claim c) →
          ∃ msg, d.JwtClaim = Except.error msg) := by
  refine ⟨?_, ?_, ?_⟩
  · intro h
    simp [DefaultContext.JwtClaim, h]
  · intro c h
    simp [DefaultContext.JwtClaim, h, assertJwtClaim]
  · intro val h hval
    cases val with
    | claim c => exact absurd rfl (hval c)
    | nil => simp [DefaultContext.JwtClaim, h, assertJwtClaim]
    | str s1 => simp [DefaultContext.JwtClaim, h, assertJwtClaim]
    | other tag => simp [DefaultContext.JwtClaim, h, assertJwtClaim]

/-- C6, the code at the failing inputs: after a `Set` of a value that is not a
claim under the reserved key, and after a `StoreJwtClaim` of the nil claim,
`JwtClaim()` panics in the type assertion, on every context. -/
theorem DefaultContext.JwtClaim_panics {κ η L : Type} (d : DefaultContext κ η L)
    (tag s : String) :
    (d.Set jwtClaimKey (Any.other tag)).JwtClaim
        = Except.error "interface conversion: value is not context.IJwtClaim"
      ∧ (d.Set jwtClaimKey (Any.str s)).JwtClaim
        = Except.error "interface conversion: string is not context.IJwtClaim"
      ∧ (d.Set jwtClaimKey Any.nil).JwtClaim
        = Except.error "interface conversion: interface is nil, not context.IJwtClaim"
      ∧ (d.StoreJwtClaim none).JwtClaim
        = Except.error "interface conversion: interface is nil, not context.IJwtClaim" := by
  simp [DefaultContext.JwtClaim, DefaultContext.Set, DefaultContext.StoreJwtClaim,
    SyncMap.Load_Store_same, assertJwtClaim, claimAsAny]

/-! ## C10: the trace id after construction -/

theorem countingGen_nonempty (i : Nat) : countingGen.ids i ≠ "" := by
  intro h
  have h1 := congrArg String.length h
  simp [countingGen, String.length_append] at h1
  exact absurd h1.1 (by decide)

theorem HeaderOp.apply_ids (op : HeaderOp) (hg : Header × TraceGen) :
    (op.apply hg).2.ids = hg.2.ids := by
  obtain ⟨h, g⟩ := hg
  cases op <;> simp [HeaderOp.apply, Header.GenerateTraceId, Header.ResetTraceId, generateTraceId]
  split <;> rfl

theorem HeaderOp.apply_TraceId_nonempty (op : HeaderOp) (hg : Header × TraceGen)
    (hgen : ∀ i, hg.2.ids i ≠ "") (hne : hg.1.TraceId ≠ "")
    (hop : ∀ t, op = HeaderOp.WithTraceId t → t ≠ "") : (op.apply hg).1.TraceId ≠ "" := by
  obtain ⟨h, g⟩ := hg
  cases op with
  | StoreRef ref => simpa [HeaderOp.apply, Header.StoreRef, Header.TraceId] using hne
  | StorePath path => simpa [HeaderOp.apply, Header.StorePath, Header.TraceId] using hne
  | WithTraceId t => simpa [HeaderOp.apply, Header.WithTraceId, Header.TraceId] using hop t rfl
  | GenerateTraceId =>
      have hne1 : h.TraceIdVal ≠ "" := hne
      simp [HeaderOp.apply, Header.GenerateTraceId, Header.TraceId, hne1]
  | ResetTraceId =>
      simpa [HeaderOp.apply, Header.ResetTraceId, Header.TraceId, generateTraceId]
        using hgen g.pos
  | WithMark mark => simpa [HeaderOp.apply, Header.WithMark, Header.TraceId] using hne
  | StoreIP ip => simpa [HeaderOp.apply, Header.StoreIP, Header.TraceId] using hne

theorem applyHeaderOps_TraceId_nonempty (ops : List HeaderOp) (hg : Header × TraceGen)
    (hgen : ∀ i, hg.2.ids i ≠ "") (hne : hg.1.TraceId ≠ "")
    (hops : ∀ t, HeaderOp.WithTraceId t ∈ ops → t ≠ "") :
    (applyHeaderOps ops hg).1.TraceId ≠ "" := by
  induction ops generalizing hg with
  | nil => simpa [applyHeaderOps] using hne
  | cons op rest ih =>
      have h1 := HeaderOp.apply_TraceId_nonempty op hg hgen hne
        (fun t ht => hops t (ht ▸ List.mem_cons_self _ _))
      have h2 : ∀ i, (op.apply hg).2.ids i ≠ "" := by
        intro i
        rw [HeaderOp.apply_ids]
        exact hgen i
      have h3 := ih (op.apply hg) h2 h1 (fun t ht => hops t (List.mem_cons_of_mem _ ht))
      simpa [applyHeaderOps] using h3

/-- C10 (as amended): when the generator gives non-empty ids, then for a
context made by `NewDefaultContext` and for one made by `Clone`, after every
sequence of header operations in which each `WithTraceId` has a non-empty
argument, `TraceId()` is non-empty. -/
theorem DefaultContext.TraceId_nonempty_after_construction {κ η L : Type}
    (loggerManager : String → L) (endpoint : Endpoint) (path : String)
    (d : DefaultContext κ η L) (g : TraceGen) (ops : List HeaderOp)
    (hgen : ∀ i, g.ids i ≠ "") (hops : ∀ t, HeaderOp.WithTraceId t ∈ ops → t ≠ "") :
    (applyHeaderOps ops
        ((NewDefaultContext (κ := κ) (η := η) loggerManager endpoint path g).1.Header,
          (NewDefaultContext (κ := κ) (η := η) loggerManager endpoint path g).2)).1.TraceId ≠ ""
      ∧ (applyHeaderOps ops ((d.Clone g).ctx.Header, (d.Clone g).gen)).1.TraceId ≠ "" :=
  ⟨applyHeaderOps_TraceId_nonempty ops _ hgen (hgen g.pos) hops,
    applyHeaderOps_TraceId_nonempty ops _ hgen (hgen g.pos) hops⟩

/-- C10, witness: a new trace id is set, reset and kept. -/
theorem DefaultContext.TraceId_nonempty_after_construction_witness :
    (applyHeaderOps
        [HeaderOp.WithTraceId "upstream", HeaderOp.StoreIP "", HeaderOp.ResetTraceId,
          HeaderOp.GenerateTraceId, HeaderOp.WithMark ""]
        ((NewDefaultContext (κ := String) (η := String) (fun _ => ()) "api" "/users"
            countingGen).1.Header,
          (NewDefaultContext (κ := String) (η := String) (fun _ => ()) "api" "/users"
            countingGen).2)).1.TraceId ≠ ""
      ∧ (applyHeaderOps
        [HeaderOp.WithTraceId "upstream", HeaderOp.StoreIP "", HeaderOp.ResetTraceId,
          HeaderOp.GenerateTraceId, HeaderOp.WithMark ""]
        ((freshContext.Clone countingGen).ctx.Header,
          (freshContext.Clone countingGen).gen)).1.TraceId ≠ "" :=
  DefaultContext.TraceId_nonempty_after_construction (fun _ => ()) "api" "/users" freshContext
    countingGen
    [HeaderOp.WithTraceId "upstream", HeaderOp.StoreIP "", HeaderOp.ResetTraceId,
      HeaderOp.GenerateTraceId, HeaderOp.WithMark ""]
    countingGen_nonempty
    (by intro t ht; simp at ht; subst ht; decide)

/-- C10, counterexample: on a new context, whose generator gives non-empty
ids, `WithTraceId("")` leaves the empty trace id. -/
theorem DefaultContext.TraceId_nonempty_counterexample :
    (∀ i, countingGen.ids i ≠ "")
      ∧ (applyHeaderOps [HeaderOp.WithTraceId ""]
          (freshContext.Header, (generateTraceId countingGen).2)).1.TraceId = ""
      ∧ (applyHeaderOps [HeaderOp.WithTraceId ""]
          ((freshContext.Clone countingGen).ctx.Header,
            (freshContext.Clone countingGen).gen)).1.TraceId = "" :=
  ⟨countingGen_nonempty, rfl, rfl⟩

/-! ## C7, C8, C9: the notification tasks -/

/-- C7: for a channel whose transport is configured, and a present error,
the task of `Send<Channel>` calls that transport once, with the title, with
the error text (the error channel) or the empty body (the others), and with
the fields `[h, f1, ..., fk]` in call order, and it does not panic; `h` is the
diagnostic header, whose keys are `Mark`, `TraceId` and `Command`, with the
mark and the trace id of the header and the command `grep <trace id>
/wider-logs/<date of now as YYYYMM/DD>/<endpoint>.<hour of now>.*.log`. -/
theorem DefaultContext.sendTask_prepends_header {κ η L : Type} (rs : Roboters κ) (now : Time)
    (d : DefaultContext κ η L) (title msg : String) (fields : List (H κ)) (ch : Channel)
    (roboter : Roboter κ) (hcfg : rs.of ch = some roboter) :
    transportCalls (d.sendTask rs now title (some msg) fields ch).effects
        = [Effect.send ch title (if ch = Channel.error then msg else "")
            (d.robotHeader now :: fields)]
      ∧ (d.sendTask rs now title (some msg) fields ch).panicked = false
      ∧ (d.robotHeader now).map Prod.fst = ["Mark", "TraceId", "Command"]
      ∧ d.robotHeader now
          = [("Mark", Any.str d.Header.Mark), ("TraceId", Any.str d.Header.TraceId),
             ("Command", Any.str
               ("grep " ++ d.Header.TraceId ++ " /wider-logs/" ++ now.format200601_02 ++ "/"
                 ++ d.Header.Endpoint ++ "." ++ toString now.hour ++ ".*.log"))]
      ∧ now.format200601_02
          = zeroPad 4 now.year ++ zeroPad 2 now.month ++ "/" ++ zeroPad 2 now.day := by
  refine ⟨?_, ?_, rfl, rfl, rfl⟩
  · cases ch
    · simp only [Roboters.of] at hcfg
      simp only [DefaultContext.sendTask, DefaultContext.SendError, hcfg]
      cases roboter title msg ([d.robotHeader now] ++ fields) <;> simp [transportCalls]
    · simp only [Roboters.of] at hcfg
      simp only [DefaultContext.sendTask, DefaultContext.SendWarning, hcfg]
      cases roboter title "" ([d.robotHeader now] ++ fields) <;> simp [transportCalls]
    · simp only [Roboters.of] at hcfg
      simp only [DefaultContext.sendTask, DefaultContext.SendSuccess, hcfg]
      cases roboter title "" ([d.robotHeader now] ++ fields) <;> simp [transportCalls]
    · simp only [Roboters.of] at hcfg
      simp only [DefaultContext.sendTask, DefaultContext.SendInfo, hcfg]
      cases roboter title "" ([d.robotHeader now] ++ fields) <;> simp [transportCalls]
  · cases ch
    · simp only [Roboters.of] at hcfg
      simp only [DefaultContext.sendTask, DefaultContext.SendError, hcfg]
      cases roboter title msg ([d.robotHeader now] ++ fields) <;> rfl
    · simp only [Roboters.of] at hcfg
      simp only [DefaultContext.sendTask, DefaultContext.SendWarning, hcfg]
      cases roboter title "" ([d.robotHeader now] ++ fields) <;> rfl
    · simp only [Roboters.of] at hcfg
      simp only [DefaultContext.sendTask, DefaultContext.SendSuccess, hcfg]
      cases roboter title "" ([d.robotHeader now] ++ fields) <;> rfl
    · simp only [Roboters.of] at hcfg
      simp only [DefaultContext.sendTask, DefaultContext.SendInfo, hcfg]
      cases roboter title "" ([d.robotHeader now] ++ fields) <;> rfl

/-- C7, witness: `SendError("boom", err, f1)` on a new context of the endpoint
`"api"`, at nine o'clock on 2024-03-07, with the error transport configured. -/
theorem DefaultContext.sendTask_prepends_header_witness :
    transportCalls (freshContext.sendTask errorOnly sampleTime "boom" (some "disk full")
        [[("k", Any.str "v")]] Channel.error).effects
      = [Effect.send Channel.error "boom" "disk full"
          [[("Mark", Any.str ""), ("TraceId", Any.str "t0"),
            ("Command", Any.str "grep t0 /wider-logs/202403/07/api.9.*.log")],
           [("k", Any.str "v")]]] :=
  (DefaultContext.sendTask_prepends_header errorOnly sampleTime freshContext "boom" "disk full"
    [[("k", Any.str "v")]] Channel.error acceptAll rfl).1.trans (by decide)

/-- C8: for a channel whose transport is not configured, the task of
`Send<Channel>` has no effect at all (no transport call, no call of the
error-logging path), does not panic, whether an error is given or not, and
leaves the context, its header and its store as they were. -/
theorem DefaultContext.sendTask_without_transport {κ η L : Type} (rs : Roboters κ) (now : Time)
    (d : DefaultContext κ η L) (title : String) (err : Option String) (fields : List (H κ))
    (ch : Channel) (hnone : rs.of ch = none) :
    (d.sendTask rs now title err fields ch).effects = []
      ∧ transportCalls (d.sendTask rs now title err fields ch).effects = []
      ∧ errorLogs (d.sendTask rs now title err fields ch).effects = []
      ∧ (d.sendTask rs now title err fields ch).panicked = false
      ∧ (d.sendTask rs now title err fields ch).ctx = d
      ∧ (d.sendTask rs now title err fields ch).ctx.Header = d.Header
      ∧ (d.sendTask rs now title err fields ch).ctx.mapping = d.mapping := by
  have h : d.sendTask rs now title err fields ch
      = { effects := [], panicked := false, ctx := d } := by
    cases ch <;> simp only [Roboters.of] at hnone
    · simp only [DefaultContext.sendTask, DefaultContext.SendError, hnone]
    · simp only [DefaultContext.sendTask, DefaultContext.SendWarning, hnone]
    · simp only [DefaultContext.sendTask, DefaultContext.SendSuccess, hnone]
    · simp only [DefaultContext.sendTask, DefaultContext.SendInfo, hnone]
  rw [h]
  exact ⟨rfl, rfl, rfl, rfl, rfl, rfl, rfl⟩

/-- C8, witness: `SendError("boom", nil)` and `SendInfo("boom")` with no
transport for the channel. -/
theorem DefaultContext.sendTask_without_transport_witness :
    (busyContext.sendTask
        { errorRoboter := none, warningRoboter := none, successRoboter := none,
          infoRoboter := none }
        sampleTime "boom" none [] Channel.error).effects = []
      ∧ (freshContext.sendTask errorOnly sampleTime "boom" (some "e") [] Channel.info).panicked
        = false :=
  ⟨(DefaultContext.sendTask_without_transport
      { errorRoboter := none, warningRoboter := none, successRoboter := none,
        infoRoboter := none }
      sampleTime busyContext "boom" none [] Channel.error rfl).1,
   (DefaultContext.sendTask_without_transport errorOnly sampleTime freshContext "boom"
      (some "e") [] Channel.info rfl).2.2.2.1⟩

/-- C9, the code at the failing input: with the error transport configured,
the task of `SendError(title, nil, fields...)` panics on `err.Error()` before
it reaches the transport: no transport call is made. -/
theorem DefaultContext.SendError_nil_error_panics {κ η L : Type} (roboter : Roboter κ)
    (warningRoboter successRoboter infoRoboter : Option (Roboter κ)) (now : Time)
    (d : DefaultContext κ η L) (title : String) (fields : List (H κ)) :
    (d.SendError
        { errorRoboter := some roboter, warningRoboter := warningRoboter,
          successRoboter := successRoboter, infoRoboter := infoRoboter }
        now title none fields).panicked = true
      ∧ transportCalls (d.SendError
        { errorRoboter := some roboter, warningRoboter := warningRoboter,
          successRoboter := successRoboter, infoRoboter := infoRoboter }
        now title none fields).effects = [] :=
  ⟨rfl, rfl⟩

end PkgContext
